import Mathlib

/-!
Verification of the energy-bench RAPL interface.

The repository source `src/rapl_interface/src/lib.rs` defines two FFI
adapters (`start_rapl`, `stop_rapl`) and, on linux/x86(_64) only, two JNI
adapters (`Java_RaplInterface_startRapl`, `Java_RaplInterface_stopRapl`),
all one-line delegations to the internal `rapl` module.  The `rapl` module
itself (the Lifecycle Controller, Sampling Loop and Counter Reader) is not
part of the given source tree, so it is modelled here from the
specification; the adapters are translated from `lib.rs` directly.
Since the spec serialises all controller transitions under one exclusive
lock, concurrent calls are modelled as a serialised sequence of atomic
operations.
-/

/-- Modelled from the spec: the process-wide sampling state machine
`{Stopped, Starting, Running, Stopping}` owned by the Lifecycle Controller
(the `rapl` module, absent from the given source). -/
inductive SamplingState where
  | Stopped
  | Starting
  | Running
  | Stopping
deriving DecidableEq, Repr

/-- Modelled from the spec: the valid transition edges of the sampling
state machine (start: Stopped→Starting→Running; stop:
Running/Starting→Stopping→Stopped). -/
def validEdge : SamplingState → SamplingState → Bool
  | .Stopped, .Starting => true
  | .Starting, .Running => true
  | .Running, .Stopping => true
  | .Starting, .Stopping => true
  | .Stopping, .Stopped => true
  | _, _ => false

/-- Modelled from the spec: the status codes the Lifecycle Controller
returns from `start` (the spec names them `{Success, AlreadyRunning /
AlreadyActive, PermissionDenied, Unsupported / NoDomainsAvailable,
InternalError}`). -/
inductive StatusCode where
  | Success
  | AlreadyActive
  | PermissionDenied
  | Unsupported
  | InternalError
deriving DecidableEq, Repr

/-- Modelled from the spec: exactly one integer code per outcome; the
concrete numbers are internal to the missing `rapl` module, only their
distinctness matters. -/
def statusToInt : StatusCode → Int
  | .Success => 0
  | .AlreadyActive => 1
  | .PermissionDenied => 2
  | .Unsupported => 3
  | .InternalError => 4

/-- Modelled from the spec: the singleton SessionHandle owning the
background task and the domain set for one Running period. -/
structure SessionHandle where
  domains : List Nat
deriving DecidableEq, Repr

/-- Modelled from the spec: the state owned by the Lifecycle Controller —
the process-wide SamplingState and the optional SessionHandle. -/
structure ControllerState where
  state : SamplingState
  session : Option SessionHandle
deriving DecidableEq, Repr

/-- Modelled from the spec: the machine configuration `start` runs
against: whether the hardware/OS counter interface exists at all
(`supported`), which power Domains are enumerable, which of them are
readable with the current privilege, and whether an internal fault (the
spec's catch-all InternalError condition, e.g. lock corruption) occurs
during the call. -/
structure Machine where
  supported : Bool
  domains : List Nat
  readable : Nat → Bool
  fault : Bool

/-- Modelled from the spec: the Domains that are both enumerable and
readable; empty when the interface is unsupported. -/
def accessibleDomains (m : Machine) : List Nat :=
  if m.supported then m.domains.filter m.readable else []

/-- Modelled from the spec: the Lifecycle Controller's `start` operation,
run atomically under the process-wide exclusive lock.  Returns the status
code, the new controller state, and the sequence of SamplingState values
entered during the call (its transition path).  If already Running or
Starting it returns AlreadyActive with no side effect; from Stopped it
enumerates Domains, fails fast with Unsupported / PermissionDenied when
none is accessible, and otherwise records the SessionHandle and moves
Stopped→Starting→Running; an internal fault yields InternalError instead
of unwinding. -/
def startCtrl (m : Machine) (c : ControllerState) :
    StatusCode × ControllerState × List SamplingState :=
  if m.fault then (.InternalError, c, [])
  else
    match c.state with
    | .Running => (.AlreadyActive, c, [])
    | .Starting => (.AlreadyActive, c, [])
    | .Stopping => (.InternalError, c, [])
    | .Stopped =>
      if m.supported then
        if (accessibleDomains m).isEmpty then (.PermissionDenied, c, [])
        else (.Success, ⟨.Running, some ⟨accessibleDomains m⟩⟩,
              [.Starting, .Running])
      else (.Unsupported, c, [])

/-- Modelled from the spec: the Lifecycle Controller's `stop` operation,
run atomically under the exclusive lock.  A no-op when already Stopped;
otherwise it signals the loop, joins it, releases the SessionHandle and
moves through Stopping to Stopped.  Returns the new controller state and
the transition path of the call. -/
def stopCtrl (c : ControllerState) : ControllerState × List SamplingState :=
  match c.state with
  | .Stopped => (c, [])
  | _ => (⟨.Stopped, none⟩, [.Stopping, .Stopped])

namespace rapl

/-- Modelled from the spec: `rapl::start_rapl`, the controller entry the
adapters delegate to; returns the status code as an integer (`i32`). -/
def start_rapl (m : Machine) (c : ControllerState) : Int × ControllerState :=
  (statusToInt (startCtrl m c).1, (startCtrl m c).2.1)

/-- Modelled from the spec: `rapl::stop_rapl`, the controller entry the
adapters delegate to; returns nothing. -/
def stop_rapl (c : ControllerState) : Unit × ControllerState :=
  ((), (stopCtrl c).1)

end rapl

/-- The C-convention adapter `start_rapl` of `lib.rs`: delegates to
`rapl::start_rapl` and returns its `i32` unchanged. -/
def start_rapl (m : Machine) (c : ControllerState) : Int × ControllerState :=
  rapl.start_rapl m c

/-- The C-convention adapter `stop_rapl` of `lib.rs`: calls
`rapl::stop_rapl();`, discarding its value, and returns nothing. -/
def stop_rapl (c : ControllerState) : Unit × ControllerState :=
  ((), (rapl.stop_rapl c).2)

/-- The JNI environment pointer argument; opaque to this library. -/
structure JNIEnv where
  raw : Nat
deriving DecidableEq, Repr

/-- The JNI class argument; opaque to this library. -/
structure JClass where
  raw : Nat
deriving DecidableEq, Repr

namespace jni

/-- The JNI adapter `Java_RaplInterface_startRapl` of `lib.rs`: ignores
its `_env` and `_class` arguments and delegates to `rapl::start_rapl`. -/
def Java_RaplInterface_startRapl (_env : JNIEnv) (_class : JClass)
    (m : Machine) (c : ControllerState) : Int × ControllerState :=
  rapl.start_rapl m c

/-- The JNI adapter `Java_RaplInterface_stopRapl` of `lib.rs`: ignores its
`_env` and `_class` arguments, calls `rapl::stop_rapl();` discarding its
value, and returns nothing. -/
def Java_RaplInterface_stopRapl (_env : JNIEnv) (_class : JClass)
    (c : ControllerState) : Unit × ControllerState :=
  ((), (rapl.stop_rapl c).2)

end jni

/-- A compilation target, as seen by the `cfg` attributes of `lib.rs`. -/
structure Target where
  os : String
  arch : String
deriving DecidableEq, Repr

/-- The condition of the `cfg(target_os = "linux")` and
`cfg(any(target_arch = "x86", target_arch = "x86_64"))` attributes guarding
the `jni` module of `lib.rs`. -/
def jniModuleCompiled (t : Target) : Bool :=
  t.os == "linux" && (t.arch == "x86" || t.arch == "x86_64")

/-- The `#[no_mangle]` entry points `lib.rs` exports for a given target:
the two C-convention adapters always, the two JNI adapters only when the
`jni` module's `cfg` condition holds. -/
def exportedSymbols (t : Target) : List String :=
  ["start_rapl", "stop_rapl"] ++
    (if jniModuleCompiled t then
      ["Java_RaplInterface_startRapl", "Java_RaplInterface_stopRapl"]
    else [])

/-- Modelled from the spec: one published energy sample — Domain, the
wraparound-corrected `delta_energy`, the interval endpoints, and the
suspect flag set when more than one counter wrap could have occurred in
the interval. -/
structure EnergySample where
  domain : Nat
  delta_energy : Int
  interval_start : Nat
  interval_end : Nat
  suspect : Bool
deriving DecidableEq, Repr

/-- Modelled from the spec: wraparound-aware subtraction of two successive
raw counter readings of one Domain.  If the new value is numerically less
than the previous one, exactly one wrap is assumed and the counter's full
modulus is added before subtracting. -/
def wrapDelta (modulus : Nat) (prev curr : Int) : Int :=
  if curr < prev then (modulus : Int) - prev + curr else curr - prev

/-- Modelled from the spec: whether more than one wrap could have occurred
during one sampling interval — the counter, advancing at up to `maxRate`
per time unit for `interval` time units, could have advanced by a full
modulus or more. -/
def multiWrapPossible (modulus interval maxRate : Nat) : Bool :=
  decide (modulus ≤ interval * maxRate)

/-- Modelled from the spec: the Sampling Loop's conversion of two
successive raw readings of a Domain into an EnergySample, marking the
sample suspect when more than one wrap could have occurred. -/
def computeSample (modulus interval maxRate : Nat) (d t0 t1 : Nat)
    (prev curr : Int) : EnergySample :=
  ⟨d, wrapDelta modulus prev curr, t0, t1,
   multiWrapPossible modulus interval maxRate⟩

/-- Modelled from the spec: an externally visible event of the serialised
system — a `start` call (against a machine configuration), a `stop` call,
an emission of a sample by the Sampling Loop, or a clock tick. -/
inductive Ev where
  | callStart (m : Machine)
  | callStop
  | emit (d : Nat) (delta : Int) (t0 : Nat) (suspect : Bool)
  | tick

/-- Whether an event is a `start` call. -/
def isStartCall : Ev → Bool
  | .callStart _ => true
  | _ => false

/-- Modelled from the spec: the whole observable system — the controller
state, a clock, the samples published so far, and the history of every
SamplingState value entered since process start (the transition path). -/
structure Sys where
  ctrl : ControllerState
  clock : Nat
  samples : List EnergySample
  hist : List SamplingState

/-- Modelled from the spec: one atomic step of the serialised system.
`start`/`stop` calls run the controller under the exclusive lock and
append their transition path to the history; the Sampling Loop can emit a
sample only while the state is Running. -/
def step (sys : Sys) : Ev → Option Sys
  | .callStart m =>
    let r := startCtrl m sys.ctrl
    some { sys with ctrl := r.2.1, hist := sys.hist ++ r.2.2,
                    clock := sys.clock + 1 }
  | .callStop =>
    let r := stopCtrl sys.ctrl
    some { sys with ctrl := r.1, hist := sys.hist ++ r.2,
                    clock := sys.clock + 1 }
  | .emit d delta t0 susp =>
    if sys.ctrl.state = .Running then
      some { sys with samples := sys.samples ++ [⟨d, delta, t0, sys.clock, susp⟩],
                      clock := sys.clock + 1 }
    else none
  | .tick => some { sys with clock := sys.clock + 1 }

/-- The initial system: Stopped, no session, no samples, empty history. -/
def init : Sys := ⟨⟨.Stopped, none⟩, 0, [], []⟩

/-- Run a sequence of events from a system state. -/
def run (sys : Sys) : List Ev → Option Sys
  | [] => some sys
  | ev :: evs =>
    match step sys ev with
    | some t => run t evs
    | none => none

/-- Whether a list of states is a path along valid edges starting at `a`. -/
def pathOk (a : SamplingState) : List SamplingState → Bool
  | [] => true
  | b :: rest => validEdge a b && pathOk b rest

/-- The last state of a path starting at `a`. -/
def lastState (a : SamplingState) : List SamplingState → SamplingState
  | [] => a
  | b :: rest => lastState b rest

/-- Appending paths multiplies the `pathOk` checks. -/
theorem pathOk_append (a : SamplingState) (l1 l2 : List SamplingState) :
    pathOk a (l1 ++ l2) = (pathOk a l1 && pathOk (lastState a l1) l2) := by
  induction l1 generalizing a with
  | nil => simp [pathOk, lastState]
  | cons b rest ih => simp [pathOk, lastState, ih, Bool.and_assoc]

/-- The last state of an appended path. -/
theorem lastState_append (a : SamplingState) (l1 l2 : List SamplingState) :
    lastState a (l1 ++ l2) = lastState (lastState a l1) l2 := by
  induction l1 generalizing a with
  | nil => simp [lastState]
  | cons b rest ih => simp [lastState, ih]

/-- The invariant of the serialised system: the recorded history is a path
along valid edges from Stopped, it ends at the current SamplingState, and
between atomic calls the state is quiescent (Stopped or Running). -/
def SysInv (sys : Sys) : Prop :=
  pathOk .Stopped sys.hist = true ∧
  lastState .Stopped sys.hist = sys.ctrl.state ∧
  (sys.ctrl.state = .Stopped ∨ sys.ctrl.state = .Running)

/-- The transition path of one `start` call is valid: it chains from the
pre-state, ends at the post-state, and the post-state is quiescent. -/
theorem startCtrl_trace (m : Machine) (c : ControllerState)
    (hq : c.state = .Stopped ∨ c.state = .Running) :
    pathOk c.state (startCtrl m c).2.2 = true ∧
    lastState c.state (startCtrl m c).2.2 = (startCtrl m c).2.1.state ∧
    ((startCtrl m c).2.1.state = .Stopped ∨
     (startCtrl m c).2.1.state = .Running) := by
  cases hf : m.fault with
  | true => simp [startCtrl, hf, pathOk, lastState, hq]
  | false =>
    rcases hq with h | h
    · cases hsup : m.supported with
      | false => simp [startCtrl, hf, h, hsup, pathOk, lastState]
      | true =>
        cases hacc : (accessibleDomains m).isEmpty with
        | true => simp [startCtrl, hf, h, hsup, hacc, pathOk, lastState]
        | false =>
          simp [startCtrl, hf, h, hsup, hacc, pathOk, lastState, validEdge]
    · simp [startCtrl, hf, h, pathOk, lastState]

/-- The transition path of one `stop` call is valid: it chains from the
pre-state, ends at the post-state, and the post-state is quiescent. -/
theorem stopCtrl_trace (c : ControllerState)
    (hq : c.state = .Stopped ∨ c.state = .Running) :
    pathOk c.state (stopCtrl c).2 = true ∧
    lastState c.state (stopCtrl c).2 = (stopCtrl c).1.state ∧
    ((stopCtrl c).1.state = .Stopped ∨ (stopCtrl c).1.state = .Running) := by
  rcases hq with h | h
  · simp [stopCtrl, h, pathOk, lastState]
  · simp [stopCtrl, h, pathOk, lastState, validEdge]

/-- Every step of the serialised system preserves the invariant. -/
theorem step_inv (sys t : Sys) (ev : Ev) (hInv : SysInv sys)
    (h : step sys ev = some t) : SysInv t := by
  obtain ⟨hPath, hLast, hQ⟩ := hInv
  cases ev with
  | callStart m =>
    obtain ⟨p1, p2, p3⟩ := startCtrl_trace m sys.ctrl hQ
    simp only [step, Option.some.injEq] at h
    subst h
    refine ⟨?_, ?_, p3⟩
    · rw [pathOk_append, hLast, hPath, p1]; rfl
    · rw [lastState_append, hLast, p2]
  | callStop =>
    obtain ⟨p1, p2, p3⟩ := stopCtrl_trace sys.ctrl hQ
    simp only [step, Option.some.injEq] at h
    subst h
    refine ⟨?_, ?_, p3⟩
    · rw [pathOk_append, hLast, hPath, p1]; rfl
    · rw [lastState_append, hLast, p2]
  | emit d delta t0 susp =>
    simp only [step] at h
    split at h
    · simp only [Option.some.injEq] at h
      subst h
      exact ⟨hPath, hLast, hQ⟩
    · exact absurd h (by simp)
  | tick =>
    simp only [step, Option.some.injEq] at h
    subst h
    exact ⟨hPath, hLast, hQ⟩

/-- Running any event sequence preserves the invariant. -/
theorem run_inv (evs : List Ev) (sys t : Sys) (hInv : SysInv sys)
    (h : run sys evs = some t) : SysInv t := by
  induction evs generalizing sys with
  | nil => simp only [run, Option.some.injEq] at h; subst h; exact hInv
  | cons ev evs ih =>
    simp only [run] at h
    cases hs : step sys ev with
    | none => rw [hs] at h; exact absurd h (by simp)
    | some u => rw [hs] at h; exact ih u (step_inv sys u ev hInv hs) h

/-- The initial system satisfies the invariant. -/
theorem init_inv : SysInv init := by
  refine ⟨rfl, rfl, Or.inl rfl⟩

/-- C1: each adapter entry point is extensionally equal to the
corresponding Lifecycle Controller operation — the C and JNI start
adapters return `rapl::start_rapl`'s status integer unchanged, and the C
and JNI stop adapters call `rapl::stop_rapl` and return nothing,
discarding its result. -/
theorem adapters_pass_through :
    (∀ (m : Machine) (c : ControllerState),
      start_rapl m c = rapl.start_rapl m c) ∧
    (∀ (e : JNIEnv) (k : JClass) (m : Machine) (c : ControllerState),
      jni.Java_RaplInterface_startRapl e k m c = rapl.start_rapl m c) ∧
    (∀ c : ControllerState, stop_rapl c = ((), (rapl.stop_rapl c).2)) ∧
    (∀ (e : JNIEnv) (k : JClass) (c : ControllerState),
      jni.Java_RaplInterface_stopRapl e k c = ((), (rapl.stop_rapl c).2)) :=
  ⟨fun _ _ => rfl, fun _ _ _ _ => rfl, fun _ => rfl, fun _ _ _ => rfl⟩

/-- C9: the JNI adapters ignore their `_env` and `_class` arguments —
for any two argument pairs and the same controller state, the returned
status and the resulting state are identical (noninterference of the JNI
parameters). -/
theorem jni_args_noninterference (e1 e2 : JNIEnv) (k1 k2 : JClass)
    (m : Machine) (c : ControllerState) :
    jni.Java_RaplInterface_startRapl e1 k1 m c
      = jni.Java_RaplInterface_startRapl e2 k2 m c ∧
    jni.Java_RaplInterface_stopRapl e1 k1 c
      = jni.Java_RaplInterface_stopRapl e2 k2 c :=
  ⟨rfl, rfl⟩

/-- C10: the JNI call surface is compiled exactly for Linux on x86 or
x86_64; on every other target only the two C-convention entry points are
exported. -/
theorem jni_surface_conditional (t u : Target)
    (h : ¬(u.os = "linux" ∧ (u.arch = "x86" ∨ u.arch = "x86_64"))) :
    (jniModuleCompiled t = true ↔
      (t.os = "linux" ∧ (t.arch = "x86" ∨ t.arch = "x86_64"))) ∧
    jniModuleCompiled u = false ∧
    exportedSymbols u = ["start_rapl", "stop_rapl"] ∧
    (jniModuleCompiled t = true →
      exportedSymbols t = ["start_rapl", "stop_rapl",
        "Java_RaplInterface_startRapl", "Java_RaplInterface_stopRapl"]) := by
  have hiff : ∀ v : Target, jniModuleCompiled v = true ↔
      (v.os = "linux" ∧ (v.arch = "x86" ∨ v.arch = "x86_64")) := by
    intro v
    simp [jniModuleCompiled, Bool.and_eq_true, Bool.or_eq_true, beq_iff_eq]
  have hu : jniModuleCompiled u = false := by
    cases hb : jniModuleCompiled u
    · rfl
    · exact absurd ((hiff u).mp hb) h
  refine ⟨hiff t, hu, ?_, ?_⟩
  · simp [exportedSymbols, hu]
  · intro ht; simp [exportedSymbols, ht]

/-- Witness for C10 at the targets linux/x86_64 and macos/aarch64. -/
theorem jni_surface_conditional_witness :
    (jniModuleCompiled ⟨"linux", "x86_64"⟩ = true ↔
      ((Target.mk "linux" "x86_64").os = "linux" ∧
       ((Target.mk "linux" "x86_64").arch = "x86" ∨
        (Target.mk "linux" "x86_64").arch = "x86_64"))) ∧
    jniModuleCompiled ⟨"macos", "aarch64"⟩ = false ∧
    exportedSymbols ⟨"macos", "aarch64"⟩ = ["start_rapl", "stop_rapl"] ∧
    (jniModuleCompiled ⟨"linux", "x86_64"⟩ = true →
      exportedSymbols ⟨"linux", "x86_64"⟩ = ["start_rapl", "stop_rapl",
        "Java_RaplInterface_startRapl", "Java_RaplInterface_stopRapl"]) :=
  jni_surface_conditional ⟨"linux", "x86_64"⟩ ⟨"macos", "aarch64"⟩ (by decide)

/-- C3: the adapters never propagate a panic across the foreign-call
boundary — with an internal fault, a start call returns the InternalError
status integer instead of unwinding; every start call returns one of the
five status integers; and every stop call returns normally (unit). -/
theorem adapters_no_panic (m mf : Machine) (c cf : ControllerState)
    (e : JNIEnv) (k : JClass) (hf : mf.fault = true) :
    (start_rapl mf cf).1 = statusToInt .InternalError ∧
    (jni.Java_RaplInterface_startRapl e k mf cf).1
      = statusToInt .InternalError ∧
    (start_rapl m c).1 ∈ ([0, 1, 2, 3, 4] : List Int) ∧
    stop_rapl c = ((), (stopCtrl c).1) ∧
    jni.Java_RaplInterface_stopRapl e k c = ((), (stopCtrl c).1) := by
  refine ⟨?_, ?_, ?_, rfl, rfl⟩
  · simp [start_rapl, rapl.start_rapl, startCtrl, hf]
  · simp [jni.Java_RaplInterface_startRapl, rapl.start_rapl, startCtrl, hf]
  · show statusToInt (startCtrl m c).1 ∈ _
    cases (startCtrl m c).1 <;> simp [statusToInt]

/-- Witness for C3 at a faulting machine and the initial controller
state. -/
theorem adapters_no_panic_witness :
    (start_rapl ⟨true, [0], fun _ => true, true⟩ ⟨.Stopped, none⟩).1
      = statusToInt .InternalError ∧
    (jni.Java_RaplInterface_startRapl ⟨0⟩ ⟨0⟩
      ⟨true, [0], fun _ => true, true⟩ ⟨.Stopped, none⟩).1
      = statusToInt .InternalError ∧
    (start_rapl ⟨true, [0], fun _ => true, true⟩ ⟨.Stopped, none⟩).1
      ∈ ([0, 1, 2, 3, 4] : List Int) ∧
    stop_rapl ⟨.Stopped, none⟩ = ((), (stopCtrl ⟨.Stopped, none⟩).1) ∧
    jni.Java_RaplInterface_stopRapl ⟨0⟩ ⟨0⟩ ⟨.Stopped, none⟩
      = ((), (stopCtrl ⟨.Stopped, none⟩).1) :=
  adapters_no_panic ⟨true, [0], fun _ => true, true⟩
    ⟨true, [0], fun _ => true, true⟩ ⟨.Stopped, none⟩ ⟨.Stopped, none⟩
    ⟨0⟩ ⟨0⟩ rfl

/-- A `start` call that returns Success leaves the controller Running. -/
theorem startCtrl_success_running (m : Machine) (c : ControllerState)
    (h : (startCtrl m c).1 = .Success) :
    (startCtrl m c).2.1.state = .Running := by
  cases hf : m.fault with
  | true => simp [startCtrl, hf] at h
  | false =>
    cases hs : c.state with
    | Running => simp [startCtrl, hf, hs] at h
    | Starting => simp [startCtrl, hf, hs] at h
    | Stopping => simp [startCtrl, hf, hs] at h
    | Stopped =>
      cases hsup : m.supported with
      | false => simp [startCtrl, hf, hs, hsup] at h
      | true =>
        cases he : (accessibleDomains m).isEmpty with
        | true => simp [startCtrl, hf, hs, hsup, he] at h
        | false => simp [startCtrl, hf, hs, hsup, he]

/-- C4: a fault-free `start` call on a controller that is already Running
or Starting returns AlreadyActive with no side effect (state and session
unchanged, no transition, no second Sampling Loop spawned); in particular
a second `start` right after a successful one returns AlreadyActive and
changes nothing. -/
theorem start_already_active (m1 m2 : Machine) (c0 c : ControllerState)
    (hf : m2.fault = false)
    (hc : c.state = .Running ∨ c.state = .Starting)
    (hfirst : (startCtrl m1 c0).1 = .Success) :
    (startCtrl m2 c).1 = .AlreadyActive ∧
    (startCtrl m2 c).2.1 = c ∧
    (startCtrl m2 c).2.2 = [] ∧
    (startCtrl m2 (startCtrl m1 c0).2.1).1 = .AlreadyActive ∧
    (startCtrl m2 (startCtrl m1 c0).2.1).2.1 = (startCtrl m1 c0).2.1 ∧
    (startCtrl m2 (startCtrl m1 c0).2.1).2.2 = [] := by
  have halready : ∀ c' : ControllerState,
      c'.state = .Running ∨ c'.state = .Starting →
      (startCtrl m2 c').1 = .AlreadyActive ∧
      (startCtrl m2 c').2.1 = c' ∧ (startCtrl m2 c').2.2 = [] := by
    intro c' hc'
    rcases hc' with h | h <;> simp [startCtrl, hf, h]
  obtain ⟨a1, a2, a3⟩ := halready c hc
  obtain ⟨b1, b2, b3⟩ :=
    halready _ (Or.inl (startCtrl_success_running m1 c0 hfirst))
  exact ⟨a1, a2, a3, b1, b2, b3⟩

/-- Witness for C4: start on a one-domain machine succeeds, and a second
start — or a start when already Running — returns AlreadyActive with no
change. -/
theorem start_already_active_witness :
    (startCtrl ⟨true, [0], fun _ => true, false⟩
      ⟨.Running, some ⟨[0]⟩⟩).1 = .AlreadyActive ∧
    (startCtrl ⟨true, [0], fun _ => true, false⟩
      ⟨.Running, some ⟨[0]⟩⟩).2.1 = ⟨.Running, some ⟨[0]⟩⟩ ∧
    (startCtrl ⟨true, [0], fun _ => true, false⟩
      ⟨.Running, some ⟨[0]⟩⟩).2.2 = [] ∧
    (startCtrl ⟨true, [0], fun _ => true, false⟩
      (startCtrl ⟨true, [0], fun _ => true, false⟩
        ⟨.Stopped, none⟩).2.1).1 = .AlreadyActive ∧
    (startCtrl ⟨true, [0], fun _ => true, false⟩
      (startCtrl ⟨true, [0], fun _ => true, false⟩
        ⟨.Stopped, none⟩).2.1).2.1
      = (startCtrl ⟨true, [0], fun _ => true, false⟩
          ⟨.Stopped, none⟩).2.1 ∧
    (startCtrl ⟨true, [0], fun _ => true, false⟩
      (startCtrl ⟨true, [0], fun _ => true, false⟩
        ⟨.Stopped, none⟩).2.1).2.2 = [] :=
  start_already_active ⟨true, [0], fun _ => true, false⟩
    ⟨true, [0], fun _ => true, false⟩ ⟨.Stopped, none⟩
    ⟨.Running, some ⟨[0]⟩⟩ rfl (Or.inl rfl) rfl

/-- C5: `stop` is idempotent — when the controller is already Stopped it
is a no-op returning the state unchanged with no transition, and `stop`
composed with `stop` from any state equals a single `stop` (the second
call does nothing). -/
theorem stop_idempotent (c c2 : ControllerState) (h : c.state = .Stopped) :
    stopCtrl c = (c, []) ∧
    stopCtrl (stopCtrl c2).1 = ((stopCtrl c2).1, []) := by
  constructor
  · simp [stopCtrl, h]
  · have hs : (stopCtrl c2).1.state = .Stopped := by
      cases hc2 : c2.state <;> simp [stopCtrl, hc2]
    obtain ⟨c3, hc3⟩ : ∃ c3, (stopCtrl c2).1 = c3 := ⟨_, rfl⟩
    rw [hc3] at hs ⊢
    simp [stopCtrl, hs]

/-- Witness for C5 at a Stopped controller and a Running controller. -/
theorem stop_idempotent_witness :
    stopCtrl ⟨.Stopped, none⟩ = (⟨.Stopped, none⟩, []) ∧
    stopCtrl (stopCtrl ⟨.Running, some ⟨[1]⟩⟩).1
      = ((stopCtrl ⟨.Running, some ⟨[1]⟩⟩).1, []) :=
  stop_idempotent ⟨.Stopped, none⟩ ⟨.Running, some ⟨[1]⟩⟩ rfl

/-- C6: a fault-free `start` from Stopped on a machine with zero
accessible Domains returns PermissionDenied or Unsupported, spawns no
Sampling Loop (empty transition path) and leaves the controller state —
including the absent SessionHandle — exactly as it was: the failed start
is atomic. -/
theorem start_no_accessible_domains (m : Machine) (c : ControllerState)
    (hf : m.fault = false) (hs : c.state = .Stopped)
    (hacc : accessibleDomains m = []) :
    ((startCtrl m c).1 = .PermissionDenied ∨
     (startCtrl m c).1 = .Unsupported) ∧
    (startCtrl m c).2.1 = c ∧
    (startCtrl m c).2.2 = [] := by
  cases hsup : m.supported with
  | false => simp [startCtrl, hf, hs, hsup]
  | true => simp [startCtrl, hf, hs, hsup, hacc]

/-- Witness for C6 at a supported machine whose only Domain is not
readable. -/
theorem start_no_accessible_domains_witness :
    ((startCtrl ⟨true, [0], fun _ => false, false⟩ ⟨.Stopped, none⟩).1
        = .PermissionDenied ∨
     (startCtrl ⟨true, [0], fun _ => false, false⟩ ⟨.Stopped, none⟩).1
        = .Unsupported) ∧
    (startCtrl ⟨true, [0], fun _ => false, false⟩ ⟨.Stopped, none⟩).2.1
      = ⟨.Stopped, none⟩ ∧
    (startCtrl ⟨true, [0], fun _ => false, false⟩ ⟨.Stopped, none⟩).2.2
      = [] :=
  start_no_accessible_domains ⟨true, [0], fun _ => false, false⟩
    ⟨.Stopped, none⟩ rfl rfl rfl

/-- C7: for consecutive readings with `curr` numerically less than `prev`
(exactly one wrap), the computed `delta_energy` equals
`(modulus - prev) + curr` and is non-negative; when more than one wrap
could have occurred in the interval, the sample is marked suspect. -/
theorem wraparound_correct (modulus interval maxRate d t0 t1 : Nat)
    (prev curr : Int) (h0 : 0 ≤ curr) (h1 : curr < prev)
    (h2 : prev ≤ (modulus : Int)) :
    (computeSample modulus interval maxRate d t0 t1 prev curr).delta_energy
      = ((modulus : Int) - prev) + curr ∧
    0 ≤ (computeSample modulus interval maxRate d t0 t1 prev curr).delta_energy ∧
    (computeSample modulus interval maxRate d t0 t1 prev curr).suspect
      = multiWrapPossible modulus interval maxRate ∧
    (multiWrapPossible modulus interval maxRate = true →
      (computeSample modulus interval maxRate d t0 t1 prev curr).suspect
        = true) := by
  have hd : (computeSample modulus interval maxRate d t0 t1 prev curr).delta_energy
      = ((modulus : Int) - prev) + curr := by
    simp [computeSample, wrapDelta, h1]
  refine ⟨hd, ?_, rfl, fun hmw => hmw⟩
  rw [hd]
  omega

/-- Witness for C7: a 256-modulus counter wrapping from 250 to 3 over an
interval coarse enough that a second wrap was possible. -/
theorem wraparound_correct_witness :
    (computeSample 256 1 300 0 0 1 250 3).delta_energy
      = (((256 : Nat) : Int) - 250) + 3 ∧
    0 ≤ (computeSample 256 1 300 0 0 1 250 3).delta_energy ∧
    (computeSample 256 1 300 0 0 1 250 3).suspect
      = multiWrapPossible 256 1 300 ∧
    (multiWrapPossible 256 1 300 = true →
      (computeSample 256 1 300 0 0 1 250 3).suspect = true) :=
  wraparound_correct 256 1 300 0 0 1 250 3 (by decide) (by decide) (by decide)

/-- C2: for every event sequence of the serialised system (the spec's
exclusive lock totally orders all calls), the recorded history of
SamplingState values is a valid path along the edges of
{Stopped, Starting, Running, Stopping} starting from Stopped, and it ends
at the currently observable state — no transition is skipped and no
inconsistent intermediate value is ever recorded. -/
theorem sampling_state_valid_path (evs : List Ev) (sys : Sys)
    (h : run init evs = some sys) :
    pathOk .Stopped sys.hist = true ∧
    lastState .Stopped sys.hist = sys.ctrl.state := by
  obtain ⟨h1, h2, _⟩ := run_inv evs init sys init_inv h
  exact ⟨h1, h2⟩

/-- Witness for C2: one start call followed by one stop call walks
Stopped→Starting→Running→Stopping→Stopped. -/
theorem sampling_state_valid_path_witness :
    pathOk .Stopped [.Starting, .Running, .Stopping, .Stopped] = true ∧
    lastState .Stopped [.Starting, .Running, .Stopping, .Stopped]
      = SamplingState.Stopped :=
  sampling_state_valid_path
    [Ev.callStart ⟨true, [0], fun _ => true, false⟩, Ev.callStop]
    ⟨⟨.Stopped, none⟩, 2, [], [.Starting, .Running, .Stopping, .Stopped]⟩
    rfl

/-- From a Stopped controller, any event sequence containing no start
call adds no samples and stays Stopped. -/
theorem run_startfree_no_emit (evs : List Ev) :
    ∀ sys t : Sys, sys.ctrl.state = .Stopped →
      (∀ ev ∈ evs, isStartCall ev = false) →
      run sys evs = some t →
      t.samples = sys.samples ∧ t.ctrl.state = .Stopped := by
  induction evs with
  | nil =>
    intro sys t hst _ hrun
    simp only [run, Option.some.injEq] at hrun
    subst hrun
    exact ⟨rfl, hst⟩
  | cons ev evs ih =>
    intro sys t hst hfree hrun
    have hfree' : ∀ e ∈ evs, isStartCall e = false :=
      fun e he => hfree e (List.mem_cons_of_mem _ he)
    cases ev with
    | callStart m =>
      have hbad := hfree (.callStart m) (List.mem_cons_self _ _)
      simp [isStartCall] at hbad
    | callStop =>
      simp only [run, step] at hrun
      exact ih { ctrl := (stopCtrl sys.ctrl).1, clock := sys.clock + 1,
                 samples := sys.samples,
                 hist := sys.hist ++ (stopCtrl sys.ctrl).2 } t
        (by simp [stopCtrl, hst]) hfree' hrun
    | emit d delta t0 susp =>
      simp [run, step, hst] at hrun
    | tick =>
      simp only [run, step] at hrun
      exact ih { ctrl := sys.ctrl, clock := sys.clock + 1,
                 samples := sys.samples, hist := sys.hist } t hst hfree' hrun

/-- C8: once a `stop` call has returned the controller is Stopped, and
from a Stopped system every continuation that contains no further start
call emits no EnergySample — no sample carries a timestamp after the
completion of a returning `stop` (and before any subsequent `start`). -/
theorem no_sample_after_stop (c : ControllerState) (evs : List Ev)
    (sys t : Sys) (hstopped : sys.ctrl.state = .Stopped)
    (hfree : ∀ ev ∈ evs, isStartCall ev = false)
    (hrun : run sys evs = some t) :
    (stopCtrl c).1.state = .Stopped ∧
    t.samples = sys.samples ∧ t.ctrl.state = .Stopped := by
  refine ⟨?_, run_startfree_no_emit evs sys t hstopped hfree hrun⟩
  cases hc : c.state <;> simp [stopCtrl, hc]

/-- Witness for C8: after stopping a Running controller, a tick and a
second stop add no samples. -/
theorem no_sample_after_stop_witness :
    (stopCtrl ⟨.Running, some ⟨[2]⟩⟩).1.state = .Stopped ∧
    (⟨⟨.Stopped, none⟩, 2, [], []⟩ : Sys).samples = init.samples ∧
    (⟨⟨.Stopped, none⟩, 2, [], []⟩ : Sys).ctrl.state = .Stopped :=
  no_sample_after_stop ⟨.Running, some ⟨[2]⟩⟩ [Ev.tick, Ev.callStop] init
    ⟨⟨.Stopped, none⟩, 2, [], []⟩ rfl (by decide) rfl
